import Mathlib

/-!
Verification of the AWS CloudControl resource reconciliation engine.

This file gives a shallow embedding of the core of the repository:

* `Json` models the JSON-like values exchanged with the CloudControl API,
  stored in block config, lifecycle signals and KV entries.  Objects are
  insertion-ordered association lists; absence of a key models the
  TypeScript `undefined`.
* `Compare.deepEqual`, `getDriftedFields` embed `src/utils/compare.ts`.
* `Patch.deepEqual`, `generateJsonPatch` embed `src/utils/patch.ts`
  (the four-argument variant with `userConfigKeys`).
* `calculateConfigHash` embeds the config fingerprinter (top-level key
  sort, JSON serialization, SHA-256 hex digest; the digest itself is
  implemented bit-for-bit after FIPS 180-4 so that hash comparisons are
  meaningful).
* `onSync` / `onDrain` embed the reconciliation and drain state machines
  of the shared CloudControl handler factory.  Remote responses are
  passed in as an environment record; KV writes, signal updates, emitted
  events, log lines and issued remote calls are returned as data.

JavaScript specifics that no theorem below touches are simplified:
numbers are `Int` (no floats), object keys follow insertion order (no
special numeric-key reordering), and `===` on two distinct aggregates is
modelled as `false` (reference equality of separately parsed values).
-/

/-- JSON-like values. Objects are insertion-ordered association lists of
distinct keys; a missing key plays the role of `undefined`. -/
inductive Json where
  | null
  | bool (b : Bool)
  | num (n : Int)
  | str (s : String)
  | arr (items : List Json)
  | obj (fields : List (String × Json))

/-- The TypeScript strict-equality test `===` as it applies to JSON
scalars; two separately constructed aggregates are never
reference-equal. -/
def strictEq : Json → Json → Bool
  | Json.null, Json.null => true
  | Json.bool a, Json.bool b => a == b
  | Json.num a, Json.num b => a == b
  | Json.str a, Json.str b => a == b
  | _, _ => false

lemma sizeOf_lookup_lt {k : String} :
    ∀ {fa : List (String × Json)} {v : Json},
      List.lookup k fa = some v → sizeOf v < sizeOf fa := by
  intro fa
  induction fa with
  | nil => intro v h; simp [List.lookup] at h
  | cons p rest ih =>
    intro v h
    rcases p with ⟨k', v'⟩
    rw [List.lookup] at h
    by_cases hk : k == k'
    · simp only [hk, if_pos] at h
      cases h
      simp
      omega
    · simp only [hk] at h
      have := ih h
      simp
      omega

namespace Compare

/-- The sorted visible top-level key list of an object as compare.ts
builds it: drop the excluded keys, then sort. -/
def visibleKeys (excludeKeys : List String) (fields : List (String × Json)) : List String :=
  List.insertionSort (fun a b => a ≤ b)
    ((fields.map Prod.fst).filter (fun k => !excludeKeys.contains k))

/-- compare.ts `deepEqual`: structural equality over scalars, arrays
(length plus element-wise comparison) and objects (sorted visible key
lists must coincide, values recursively equal), excluding `excludeKeys`
at every object level. -/
def deepEqual (excludeKeys : List String) : Json → Json → Bool
  | Json.arr as, Json.arr bs =>
      as.length == bs.length &&
      (as.zip bs).attach.all (fun p => deepEqual excludeKeys p.1.1 p.1.2)
  | Json.obj fa, Json.obj fb =>
      visibleKeys excludeKeys fa == visibleKeys excludeKeys fb &&
      (visibleKeys excludeKeys fa).all (fun k =>
        match hva : List.lookup k fa, List.lookup k fb with
        | some va, some vb => deepEqual excludeKeys va vb
        | none, none => true
        | _, _ => false)
  | a, b => strictEq a b
termination_by a _ => sizeOf a
decreasing_by
  · have hmem : p.1.1 ∈ as := (List.of_mem_zip p.2).1
    have := List.sizeOf_lt_of_mem hmem
    simp
    omega
  · have := sizeOf_lookup_lt hva
    simp
    omega

lemma deepEqual_arr (excludeKeys : List String) (as bs : List Json) :
    deepEqual excludeKeys (Json.arr as) (Json.arr bs) =
      (as.length == bs.length &&
       (as.zip bs).all (fun p => deepEqual excludeKeys p.1 p.2)) := by
  rw [deepEqual]
  congr 1
  rw [Bool.eq_iff_iff, List.all_eq_true, List.all_eq_true]
  constructor
  · intro h p hp
    exact h ⟨p, hp⟩ (List.mem_attach _ _)
  · intro h p _
    exact h p.1 p.2

lemma deepEqual_obj (excludeKeys : List String) (fa fb : List (String × Json)) :
    deepEqual excludeKeys (Json.obj fa) (Json.obj fb) =
      (visibleKeys excludeKeys fa == visibleKeys excludeKeys fb &&
       (visibleKeys excludeKeys fa).all (fun k =>
         match List.lookup k fa, List.lookup k fb with
         | some va, some vb => deepEqual excludeKeys va vb
         | none, none => true
         | _, _ => false)) := by
  rw [deepEqual]
  congr 2
  funext k
  cases List.lookup k fa <;> cases List.lookup k fb <;> rfl

lemma deepEqual_num (excl : List String) (a b : Int) :
    deepEqual excl (Json.num a) (Json.num b) = (a == b) := by
  rw [deepEqual] <;> simp [strictEq]

lemma deepEqual_str (excl : List String) (a b : String) :
    deepEqual excl (Json.str a) (Json.str b) = (a == b) := by
  rw [deepEqual] <;> simp [strictEq]

end Compare

namespace Patch

/-- patch.ts private `deepEqual` (no exclusion set): scalars by strict
equality, arrays element-wise, objects by key-count plus per-key
comparison of the left object's keys. -/
def deepEqual : Json → Json → Bool
  | Json.arr as, Json.arr bs =>
      as.length == bs.length &&
      (as.zip bs).attach.all (fun p => deepEqual p.1.1 p.1.2)
  | Json.obj fa, Json.obj fb =>
      (fa.map Prod.fst).length == (fb.map Prod.fst).length &&
      (fa.map Prod.fst).all (fun k =>
        match hva : List.lookup k fa, List.lookup k fb with
        | some va, some vb => deepEqual va vb
        | none, none => true
        | _, _ => false)
  | a, b => strictEq a b
termination_by a _ => sizeOf a
decreasing_by
  · have hmem : p.1.1 ∈ as := (List.of_mem_zip p.2).1
    have := List.sizeOf_lt_of_mem hmem
    simp
    omega
  · have := sizeOf_lookup_lt hva
    simp
    omega

lemma deepEqualArr (as bs : List Json) :
    deepEqual (Json.arr as) (Json.arr bs) =
      (as.length == bs.length &&
       (as.zip bs).all (fun p => deepEqual p.1 p.2)) := by
  rw [deepEqual]
  congr 1
  rw [Bool.eq_iff_iff, List.all_eq_true, List.all_eq_true]
  constructor
  · intro h p hp
    exact h ⟨p, hp⟩ (List.mem_attach _ _)
  · intro h p _
    exact h p.1 p.2

lemma deepEqualObj (fa fb : List (String × Json)) :
    deepEqual (Json.obj fa) (Json.obj fb) =
      ((fa.map Prod.fst).length == (fb.map Prod.fst).length &&
       (fa.map Prod.fst).all (fun k =>
         match List.lookup k fa, List.lookup k fb with
         | some va, some vb => deepEqual va vb
         | none, none => true
         | _, _ => false)) := by
  rw [deepEqual]
  congr 2
  funext k
  cases List.lookup k fa <;> cases List.lookup k fb <;> rfl

lemma deepEqualNum (a b : Int) :
    deepEqual (Json.num a) (Json.num b) = (a == b) := by
  rw [deepEqual] <;> simp [strictEq]

lemma deepEqualStr (a b : String) :
    deepEqual (Json.str a) (Json.str b) = (a == b) := by
  rw [deepEqual] <;> simp [strictEq]

end Patch

/-- JavaScript `Set` iteration order over a spread of key arrays: keep
the first occurrence of each element, preserving order. -/
def firstDedup : List String → List String
  | [] => []
  | k :: ks => k :: firstDedup (ks.filter (fun x => !(x == k)))
termination_by l => l.length
decreasing_by
  simp
  have := List.length_filter_le (fun x => !(x == k)) ks
  omega

lemma mem_firstDedup : ∀ (l : List String) (x : String), x ∈ firstDedup l ↔ x ∈ l := by
  intro l
  induction l using firstDedup.induct with
  | case1 => simp [firstDedup]
  | case2 k ks ih =>
    intro x
    rw [firstDedup]
    by_cases hx : x = k
    · subst hx; simp
    · simp only [List.mem_cons, ih, List.mem_filter]
      constructor
      · rintro (h | ⟨h, _⟩)
        · exact Or.inl h
        · exact Or.inr h
      · rintro (h | h)
        · exact Or.inl h
        · refine Or.inr ⟨h, ?_⟩
          simp [hx]

lemma nodup_firstDedup : ∀ (l : List String), (firstDedup l).Nodup := by
  intro l
  induction l using firstDedup.induct with
  | case1 => simp [firstDedup]
  | case2 k ks ih =>
    rw [firstDedup]
    refine List.nodup_cons.mpr ⟨?_, ih⟩
    rw [mem_firstDedup]
    simp

namespace Compare

/-- Comparison of two possibly-absent values the way compare.ts sees
them: both absent are `===`-equal, one absent is unequal, both present
compare with `deepEqual`. -/
def deepEqualOpt (excludeKeys : List String) : Option Json → Option Json → Bool
  | some a, some b => deepEqual excludeKeys a b
  | none, none => true
  | _, _ => false

/-- compare.ts `getDriftedFields`: the non-excluded top-level keys of
either object whose values differ (inner comparison runs with no
exclusion set, exactly as the source calls `deepEqual` there). -/
def getDriftedFields (actualState lastKnownState : List (String × Json))
    (excludeKeys : List String) : List String :=
  (firstDedup ((actualState.map Prod.fst) ++ (lastKnownState.map Prod.fst))).filter
    (fun k => !excludeKeys.contains k &&
      !(deepEqualOpt [] (List.lookup k actualState) (List.lookup k lastKnownState)))

/-- compare.ts `logDrift`, modelled as the log lines it prints. -/
def logDrift (typeName resourceId : String)
    (actualState lastKnownState : List (String × Json))
    (excludeKeys : List String) : List String :=
  let changedFields := getDriftedFields actualState lastKnownState excludeKeys
  ("Resource drift detected for " ++ typeName ++ ":" ++ resourceId) ::
    (if changedFields.isEmpty then []
     else ["Changed fields: " ++ String.intercalate ", " changedFields])

end Compare

/-- One RFC 6902 operation as patch.ts builds them: `op` is `add`,
`remove` or `replace`, `path` is a slash-prefixed top-level key. -/
structure PatchOperation where
  op : String
  path : String
  value : Option Json := none

/-- The loop body of `generateJsonPatch`: the operations pushed for one
key of the considered key set. -/
def genPatchForKey (oldObj newObj : List (String × Json))
    (readOnlyKeys userConfigKeys : List String) (key : String) : List PatchOperation :=
  if readOnlyKeys.contains key then []
  else
    match List.lookup key oldObj, List.lookup key newObj with
    | some _, none =>
        if userConfigKeys.contains key then
          [{ op := "remove", path := "/" ++ key }]
        else []
    | none, some newValue =>
        [{ op := "add", path := "/" ++ key, value := some newValue }]
    | some oldValue, some newValue =>
        if Patch.deepEqual oldValue newValue then []
        else [{ op := "replace", path := "/" ++ key, value := some newValue }]
    | none, none => []

/-- patch.ts `generateJsonPatch` (four-argument variant): compare
`oldObj` with `newObj` over the keys of `newObj` plus the
`userConfigKeys`, skipping `readOnlyKeys`; emit `remove` only for keys
the user explicitly configured, `add` for new keys, `replace` for
changed ones. -/
def generateJsonPatch (oldObj newObj : List (String × Json))
    (readOnlyKeys userConfigKeys : List String) : List PatchOperation :=
  let allKeys := firstDedup ((newObj.map Prod.fst) ++ userConfigKeys)
  allKeys.flatMap (genPatchForKey oldObj newObj readOnlyKeys userConfigKeys)

namespace Sha256

/-- Truncation to a 32-bit word. -/
def w32 (n : Nat) : Nat := n % 4294967296

/-- 32-bit right rotation. -/
def rotr (n x : Nat) : Nat := w32 ((x >>> n) ||| (x <<< (32 - n)))

def ch (x y z : Nat) : Nat := (x &&& y) ^^^ ((x ^^^ 0xffffffff) &&& z)

def maj (x y z : Nat) : Nat := (x &&& y) ^^^ (x &&& z) ^^^ (y &&& z)

def bsig0 (x : Nat) : Nat := rotr 2 x ^^^ rotr 13 x ^^^ rotr 22 x

def bsig1 (x : Nat) : Nat := rotr 6 x ^^^ rotr 11 x ^^^ rotr 25 x

def ssig0 (x : Nat) : Nat := rotr 7 x ^^^ rotr 18 x ^^^ (x >>> 3)

def ssig1 (x : Nat) : Nat := rotr 17 x ^^^ rotr 19 x ^^^ (x >>> 10)

/-- The 64 SHA-256 round constants of FIPS 180-4 (the fractional parts
of the cube roots of the first 64 primes), written in decimal. -/
def roundConstants : List Nat :=
  [1116352408, 1899447441, 3049323471, 3921009573,
   961987163, 1508970993, 2453635748, 2870763221,
   3624381080, 310598401, 607225278, 1426881987,
   1925078388, 2162078206, 2614888103, 3248222580,
   3835390401, 4022224774, 264347078, 604807628,
   770255983, 1249150122, 1555081692, 1996064986,
   2554220882, 2821834349, 2952996808, 3210313671,
   3336571891, 3584528711, 113926993, 338241895,
   666307205, 773529912, 1294757372, 1396182291,
   1695183700, 1986661051, 2177026350, 2456956037,
   2730485921, 2820302411, 3259730800, 3345764771,
   3516065817, 3600352804, 4094571909, 275423344,
   430227734, 506948616, 659060556, 883997877,
   958139571, 1322822218, 1537002063, 1747873779,
   1955562222, 2024104815, 2227730452, 2361852424,
   2428436474, 2756734187, 3204031479, 3329325298]

/-- The eight SHA-256 initial hash words of FIPS 180-4, in decimal. -/
def initialHash : List Nat :=
  [1779033703, 3144134277, 1013904242, 2773480762,
   1359893119, 2600822924, 528734635, 1541459225]

/-- The 64-bit big-endian byte encoding of the message bit length. -/
def be64 (n : Nat) : List Nat :=
  [(n >>> 56) % 256, (n >>> 48) % 256, (n >>> 40) % 256, (n >>> 32) % 256,
   (n >>> 24) % 256, (n >>> 16) % 256, (n >>> 8) % 256, n % 256]

/-- FIPS 180-4 message padding: a 0x80 byte, zeros up to 56 mod 64, then
the bit length. -/
def pad (bytes : List Nat) : List Nat :=
  bytes ++ 0x80 :: List.replicate ((64 - ((bytes.length + 9) % 64)) % 64) 0 ++
    be64 (8 * bytes.length)

/-- Big-endian packing of bytes into 32-bit words. -/
def toWords : List Nat → List Nat
  | b0 :: b1 :: b2 :: b3 :: rest =>
      ((b0 <<< 24) ||| (b1 <<< 16) ||| (b2 <<< 8) ||| b3) :: toWords rest
  | _ => []

/-- Extend the 16 block words by `fuel` scheduled words. -/
def extendWords : List Nat → Nat → List Nat
  | ws, 0 => ws
  | ws, n + 1 =>
      extendWords
        (ws ++ [w32 (ssig1 (ws.getD (ws.length - 2) 0) + ws.getD (ws.length - 7) 0 +
                     ssig0 (ws.getD (ws.length - 15) 0) + ws.getD (ws.length - 16) 0)]) n

/-- One compression round on the eight-word state. -/
def round (st : List Nat) (k w : Nat) : List Nat :=
  let a := st.getD 0 0
  let b := st.getD 1 0
  let c := st.getD 2 0
  let d := st.getD 3 0
  let e := st.getD 4 0
  let f := st.getD 5 0
  let g := st.getD 6 0
  let h := st.getD 7 0
  let t1 := w32 (h + bsig1 e + ch e f g + k + w)
  let t2 := w32 (bsig0 a + maj a b c)
  [w32 (t1 + t2), a, b, c, w32 (d + t1), e, f, g]

/-- Compress one 64-byte block into the running hash. -/
def processBlock (st : List Nat) (block : List Nat) : List Nat :=
  let ws := extendWords (toWords block) 48
  let compressed := (List.zip roundConstants ws).foldl (fun s p => round s p.1 p.2) st
  List.zipWith (fun x y => w32 (x + y)) st compressed

/-- SHA-256 over a byte list, as eight 32-bit words. -/
def sha256 (bytes : List Nat) : List Nat :=
  let padded := pad bytes
  (List.range (padded.length / 64)).foldl
    (fun st i => processBlock st ((padded.drop (64 * i)).take 64)) initialHash

def hexDigit (n : Nat) : Char :=
  if n < 10 then Char.ofNat (48 + n) else Char.ofNat (87 + n)

def wordHex (w : Nat) : String :=
  String.mk [hexDigit ((w >>> 28) % 16), hexDigit ((w >>> 24) % 16),
             hexDigit ((w >>> 20) % 16), hexDigit ((w >>> 16) % 16),
             hexDigit ((w >>> 12) % 16), hexDigit ((w >>> 8) % 16),
             hexDigit ((w >>> 4) % 16), hexDigit (w % 16)]

/-- UTF-8 encoding of one character. -/
def charUtf8 (c : Char) : List Nat :=
  let n := c.toNat
  if n < 0x80 then [n]
  else if n < 0x800 then [0xc0 ||| (n >>> 6), 0x80 ||| (n &&& 0x3f)]
  else if n < 0x10000 then
    [0xe0 ||| (n >>> 12), 0x80 ||| ((n >>> 6) &&& 0x3f), 0x80 ||| (n &&& 0x3f)]
  else
    [0xf0 ||| (n >>> 18), 0x80 ||| ((n >>> 12) &&& 0x3f),
     0x80 ||| ((n >>> 6) &&& 0x3f), 0x80 ||| (n &&& 0x3f)]

def utf8Bytes (s : String) : List Nat :=
  (s.data.map charUtf8).foldr (fun bs acc => bs ++ acc) []

/-- Node's `createHash("sha256").update(s).digest("hex")`. -/
def hexDigest (s : String) : String :=
  ((sha256 (utf8Bytes s)).map wordHex).foldl (fun acc w => acc ++ w) ""

end Sha256

def jsonEscapeChar (c : Char) : String :=
  if c = Char.ofNat 34 then "\\\"" 
  else if c = Char.ofNat 92 then "\\\\"
  else if c = Char.ofNat 10 then "\\n"
  else if c = Char.ofNat 13 then "\\r"
  else if c = Char.ofNat 9 then "\\t"
  else if c = Char.ofNat 8 then "\\b"
  else if c = Char.ofNat 12 then "\\f"
  else if c.toNat < 32 then
    "\\u00" ++ String.mk [Sha256.hexDigit (c.toNat / 16), Sha256.hexDigit (c.toNat % 16)]
  else String.mk [c]

def jsonQuote (s : String) : String :=
  "\"" ++ s.data.foldl (fun acc c => acc ++ jsonEscapeChar c) "" ++ "\""

mutual

/-- `JSON.stringify` over the Json model (the JavaScript built-in the
fingerprinter serializes with): no whitespace, fields in list order. -/
def stringify : Json → String
  | Json.null => "null"
  | Json.bool b => if b then "true" else "false"
  | Json.num n => toString n
  | Json.str s => jsonQuote s
  | Json.arr items => "[" ++ stringifyItems items ++ "]"
  | Json.obj fields => "\x7b" ++ stringifyFields fields ++ "\x7d"

/-- Comma-separated serialization of array elements. -/
def stringifyItems : List Json → String
  | [] => ""
  | [v] => stringify v
  | v :: rest => stringify v ++ "," ++ stringifyItems rest

/-- Comma-separated serialization of object fields. -/
def stringifyFields : List (String × Json) → String
  | [] => ""
  | [(k, v)] => jsonQuote k ++ ":" ++ stringify v
  | (k, v) :: rest => jsonQuote k ++ ":" ++ stringify v ++ "," ++ stringifyFields rest

end

/-- hash.ts builds `sortedConfig` by sorting `Object.keys(config)` and
re-inserting each key with its looked-up value. -/
def sortedTopLevel (config : List (String × Json)) : List (String × Json) :=
  (List.insertionSort (fun a b => a ≤ b) (config.map Prod.fst)).filterMap
    (fun k => (List.lookup k config).map (fun v => (k, v)))

/-- hash.ts `calculateConfigHash`: rebuild the config with its top-level
keys sorted, serialize it as JSON, and take the SHA-256 hex digest. -/
def calculateConfigHash (config : List (String × Json)) : String :=
  Sha256.hexDigest (stringify (Json.obj (sortedTopLevel config)))

/-- A CloudControl `ProgressEvent`, with exactly the fields the handlers
read.  `operationStatus` is compared against the literals `"FAILED"` and
`"SUCCESS"`; anything else counts as still pending. -/
structure ProgressEvent where
  identifier : Option String := none
  operation : Option String := none
  operationStatus : String := "IN_PROGRESS"
  requestToken : Option String := none
  statusMessage : Option String := none

/-- One remote CloudControl call issued during an invocation. -/
inductive RemoteCall where
  | create (typeName : String) (desiredState : List (String × Json))
  | getStatus (requestToken : String)
  | get (typeName : String) (identifier : Option String)
  | update (typeName : String) (identifier : String) (patch : List PatchOperation)
  | delete (typeName : String) (identifier : Option String)

/-- Whether a remote call mutates the remote resource. -/
def RemoteCall.isMutation : RemoteCall → Bool
  | RemoteCall.create _ _ => true
  | RemoteCall.update _ _ _ => true
  | RemoteCall.delete _ _ => true
  | _ => false

/-- An `events.emit` payload. -/
structure EmitEvent where
  state : List (String × Json)
  resourceIdentifier : Option String
  drifted : Bool

/-- The remote responses an invocation would observe, one per possible
call site: the create/update/delete responses, the request-status poll
response, and the parsed `Properties` of a `GetResource` call. -/
structure SyncEnv where
  createResponse : ProgressEvent := {}
  pollResponse : ProgressEvent := {}
  getResponse : List (String × Json) := []
  updateResponse : ProgressEvent := {}
  deleteResponse : ProgressEvent := {}

/-- Everything `onSync` reads: static handler options, block config,
lifecycle signals, the two internal KV entries, and the environment of
remote responses. -/
structure SyncArgs where
  typeName : String
  desiredState : List (String × Json)
  reconcileOnDrift : Option Bool := none
  nonUpdatableKeys : List String := []
  requestToken : Option String := none
  configHash : Option String := none
  resourceIdentifier : Option String := none
  state : Option (List (String × Json)) := none
  env : SyncEnv := {}

/-- Everything `onSync` produces: the lifecycle callback output
(status, description, delay, signal updates) plus the final values of
the two KV entries, the emitted events, the log lines and the remote
calls issued.  A `none` signal field means the update object did not
mention that signal. -/
structure SyncOutput where
  newStatus : String
  customStatusDescription : Option String := none
  nextScheduleDelay : Option Nat := none
  tokenKV : Option String
  hashKV : Option String
  sigState : Option (List (String × Json)) := none
  sigResourceIdentifier : Option (Option String) := none
  sigDrifted : Option Bool := none
  emitted : List EmitEvent := []
  logs : List String := []
  calls : List RemoteCall := []

/-- The current fingerprint of the desired config
(`currentConfigHash` in the handler). -/
def syncCurrentConfigHash (a : SyncArgs) : String := calculateConfigHash a.desiredState

/-- The parsed properties of the drift-check `GetResource` call
(`actualState` in the handler). -/
def syncActualState (a : SyncArgs) : List (String × Json) := a.env.getResponse

/-- The stored observed state with the handler's `|| {}` default
(`lastKnownState`). -/
def syncLastKnownState (a : SyncArgs) : List (String × Json) := a.state.getD []

/-- `driftDetected`: the fetched state differs from the stored one
outside the non-updatable keys. -/
def syncDriftDetected (a : SyncArgs) : Bool :=
  !(Compare.deepEqual a.nonUpdatableKeys (Json.obj (syncActualState a))
      (Json.obj (syncLastKnownState a)))

/-- `configChanged`: the stored fingerprint differs from the current
one. -/
def syncConfigChanged (a : SyncArgs) : Bool :=
  !(a.configHash == some (syncCurrentConfigHash a))

/-- `shouldReconcile`: `reconcileOnDrift !== false`. -/
def syncShouldReconcile (a : SyncArgs) : Bool :=
  !(a.reconcileOnDrift == some false)

/-- `patchOperations`: the reconciliation patch from the fetched state
to the desired one, with the user-configured keys being exactly the keys
of the desired state. -/
def syncPatchOperations (a : SyncArgs) : List PatchOperation :=
  generateJsonPatch (syncActualState a) a.desiredState a.nonUpdatableKeys
    (a.desiredState.map Prod.fst)

/-- The `onSync` handler of the CloudControl handler factory
(`createCloudControlHandlers`), as a pure function from the persisted
state and remote responses to its outputs.  The handler locals
(`currentConfigHash`, `actualState`, `driftDetected`, ...) are the
standalone definitions above. -/
def onSync (a : SyncArgs) : SyncOutput :=
  if a.requestToken.isNone && a.resourceIdentifier.isNone then
    -- No request token and no identifier suggests a creation.
    let pe := a.env.createResponse
    let createCall := RemoteCall.create a.typeName a.desiredState
    if pe.operationStatus == "FAILED" then
      { newStatus := "failed",
        customStatusDescription := some "Creation failed, see logs",
        tokenKV := a.requestToken, hashKV := a.configHash,
        logs := ["Error creating resource: " ++ pe.statusMessage.getD "undefined"],
        calls := [createCall] }
    else
      { newStatus := "in_progress", nextScheduleDelay := some 10,
        tokenKV := pe.requestToken, hashKV := some (syncCurrentConfigHash a),
        calls := [createCall] }
  else
    match a.requestToken with
    | some tok =>
      -- Check the status of the in-flight operation.
      let pe := a.env.pollResponse
      if pe.operationStatus == "FAILED" then
        { newStatus := "failed",
          customStatusDescription := some ((pe.operation.getD "undefined") ++ " failed, see logs"),
          tokenKV := none, hashKV := a.configHash,
          logs := ["Resource error: " ++ pe.statusMessage.getD "undefined"],
          calls := [RemoteCall.getStatus tok] }
      else if pe.operationStatus == "SUCCESS" then
        let resourceProperties := a.env.getResponse
        let previousState := a.state.getD []
        let stateChanged :=
          !(Compare.deepEqual a.nonUpdatableKeys (Json.obj resourceProperties)
              (Json.obj previousState))
        { newStatus := "ready",
          tokenKV := none, hashKV := a.configHash,
          sigState := some resourceProperties,
          sigResourceIdentifier := some pe.identifier,
          sigDrifted := some false,
          emitted :=
            if stateChanged then
              [{ state := resourceProperties, resourceIdentifier := pe.identifier,
                 drifted := false }]
            else [],
          calls := [RemoteCall.getStatus tok, RemoteCall.get a.typeName pe.identifier] }
      else
        { newStatus := "in_progress", nextScheduleDelay := some 10,
          tokenKV := pe.requestToken, hashKV := a.configHash,
          calls := [RemoteCall.getStatus tok] }
    | none =>
      match a.resourceIdentifier with
      | some rid =>
        -- Always check for resource drift during sync.
        let getCall := RemoteCall.get a.typeName (some rid)
        if syncDriftDetected a || syncConfigChanged a then
          let driftLogs :=
            if syncDriftDetected a && !(syncConfigChanged a) then
              Compare.logDrift a.typeName rid (syncActualState a) (syncLastKnownState a)
                a.nonUpdatableKeys
            else []
          if !(syncShouldReconcile a) && syncDriftDetected a && !(syncConfigChanged a) then
            -- Drift detected but reconciliation disabled: just report it.
            let driftedFields :=
              Compare.getDriftedFields (syncActualState a) (syncLastKnownState a)
                a.nonUpdatableKeys
            { newStatus := "ready",
              customStatusDescription :=
                some ("Drifted (" ++ String.intercalate ", " driftedFields ++ ")"),
              tokenKV := a.requestToken, hashKV := a.configHash,
              sigDrifted := some true,
              emitted := [{ state := syncActualState a, resourceIdentifier := some rid,
                            drifted := true }],
              logs := driftLogs,
              calls := [getCall] }
          else
            if (syncPatchOperations a).length == 0 then
              -- No changes needed, just update stored state.
              { newStatus := "ready",
                tokenKV := a.requestToken, hashKV := some (syncCurrentConfigHash a),
                sigState := some (syncActualState a),
                sigDrifted := some false,
                emitted :=
                  if syncDriftDetected a then
                    [{ state := syncActualState a, resourceIdentifier := some rid,
                       drifted := false }]
                  else [],
                logs := driftLogs,
                calls := [getCall] }
            else
              -- Apply the reconciliation update.
              let pe := a.env.updateResponse
              if pe.operationStatus == "FAILED" then
                { newStatus := "failed",
                  customStatusDescription := some "Update failed, see logs",
                  tokenKV := a.requestToken, hashKV := a.configHash,
                  logs := driftLogs ++
                    ["Error updating resource: " ++ pe.statusMessage.getD "undefined"],
                  calls := [getCall, RemoteCall.update a.typeName rid (syncPatchOperations a)] }
              else
                { newStatus := "in_progress", nextScheduleDelay := some 10,
                  tokenKV := pe.requestToken, hashKV := some (syncCurrentConfigHash a),
                  logs := driftLogs,
                  calls := [getCall, RemoteCall.update a.typeName rid (syncPatchOperations a)] }
        else
          if syncDriftDetected a then
            -- State changed but no drift.
            { newStatus := "ready",
              tokenKV := a.requestToken, hashKV := a.configHash,
              sigState := some (syncActualState a),
              sigDrifted := some false,
              emitted := [{ state := syncActualState a, resourceIdentifier := some rid,
                            drifted := false }],
              calls := [getCall] }
          else
            -- Resource is in sync.
            { newStatus := "ready",
              tokenKV := a.requestToken, hashKV := a.configHash,
              calls := [getCall] }
      | none =>
        -- Resource is in sync.
        { newStatus := "ready", tokenKV := a.requestToken, hashKV := a.configHash }

/-- Everything `onDrain` reads. -/
structure DrainArgs where
  typeName : String
  requestToken : Option String := none
  resourceIdentifier : Option String := none
  env : SyncEnv := {}

/-- Everything `onDrain` produces. -/
structure DrainOutput where
  newStatus : String
  customStatusDescription : Option String := none
  nextScheduleDelay : Option Nat := none
  tokenKV : Option String
  logs : List String := []
  calls : List RemoteCall := []

/-- The `onDrain` handler of the CloudControl handler factory, as a pure
function. -/
def onDrain (a : DrainArgs) : DrainOutput :=
  if a.requestToken.isNone && a.resourceIdentifier.isNone then
    -- Nothing to clean up.
    { newStatus := "drained", tokenKV := a.requestToken }
  else
    match a.requestToken with
    | some tok =>
      -- Query for the status of the in-flight operation.
      let pe := a.env.pollResponse
      if pe.operationStatus == "FAILED" then
        { newStatus := "failed",
          customStatusDescription := some "Deletion failed, see logs",
          tokenKV := none,
          logs := ["Resource error: " ++ pe.statusMessage.getD "undefined"],
          calls := [RemoteCall.getStatus tok] }
      else if pe.operationStatus == "SUCCESS" then
        { newStatus := "drained", tokenKV := a.requestToken,
          calls := [RemoteCall.getStatus tok] }
      else
        { newStatus := "draining", nextScheduleDelay := some 10,
          tokenKV := a.requestToken,
          calls := [RemoteCall.getStatus tok] }
    | none =>
      let pe := a.env.deleteResponse
      let deleteCall := RemoteCall.delete a.typeName a.resourceIdentifier
      if pe.operationStatus == "FAILED" then
        { newStatus := "failed",
          customStatusDescription := some "Deletion failed, see logs",
          tokenKV := a.requestToken,
          logs := ["Error deleting resource: " ++ pe.statusMessage.getD "undefined"],
          calls := [deleteCall] }
      else if pe.operationStatus == "SUCCESS" then
        { newStatus := "drained", tokenKV := a.requestToken,
          calls := [deleteCall] }
      else
        { newStatus := "draining", nextScheduleDelay := some 10,
          tokenKV := pe.requestToken,
          calls := [deleteCall] }

/-- Carrying one invocation's persisted outputs into the next
invocation's inputs: the final KV values become the stored token and
fingerprint, and signal updates overwrite the corresponding signals. -/
def applySyncOutput (a : SyncArgs) (o : SyncOutput) : SyncArgs :=
  { a with
    requestToken := o.tokenKV,
    configHash := o.hashKV,
    resourceIdentifier :=
      match o.sigResourceIdentifier with
      | some v => v
      | none => a.resourceIdentifier,
    state :=
      match o.sigState with
      | some s => some s
      | none => a.state }

/-- Insert-or-overwrite of a top-level key, preserving field order. -/
def setKey : List (String × Json) → String → Json → List (String × Json)
  | [], k, v => [(k, v)]
  | (k', v') :: rest, k, v =>
      if k' = k then (k, v) :: rest else (k', v') :: setKey rest k v

/-- Deletion of a top-level key. -/
def removeKey (fields : List (String × Json)) (k : String) : List (String × Json) :=
  fields.filter (fun p => !(p.1 == k))

/-- The top-level key addressed by a patch path of the form `/Key`. -/
def patchPathKey (path : String) : String := String.mk (path.data.drop 1)

/-- Modelled from the spec: the engine sends the generated patch to the
remote `UpdateResource` call, and the remote side's application of RFC
6902 operations is not part of this repository.  Per the spec's patch
contract (§4.4), each operation targets a distinct top-level path:
`add` inserts or overwrites the addressed key, `replace` overwrites it,
`remove` deletes it, and unknown ops are ignored. -/
def applyOp (fields : List (String × Json)) (op : PatchOperation) : List (String × Json) :=
  let k := patchPathKey op.path
  if op.op == "add" || op.op == "replace" then
    match op.value with
    | some v => setKey fields k v
    | none => fields
  else if op.op == "remove" then removeKey fields k
  else fields

/-- Modelled from the spec: application of a whole patch document, one
operation at a time, in order. -/
def applyPatch (fields : List (String × Json)) (ops : List PatchOperation) :
    List (String × Json) :=
  ops.foldl applyOp fields

section ConcreteInstances

/-- The spec's running example config. -/
def exampleDesired : List (String × Json) := [("Name", Json.str "a"), ("Size", Json.num 1)]

/-- A fresh instance about to be created. -/
def freshArgs : SyncArgs :=
  { typeName := "AWS::S3::Bucket", desiredState := exampleDesired,
    env := { createResponse := { operationStatus := "IN_PROGRESS", requestToken := some "tok-1" } } }

/-- A drain call with an identifier, no token, whose delete succeeds at
once. -/
def drainArgs : DrainArgs :=
  { typeName := "AWS::S3::Bucket", resourceIdentifier := some "abc",
    env := { deleteResponse := { operationStatus := "SUCCESS" } } }

/-- An instance with an in-flight operation whose poll succeeds with
identifier `abc` and whose fetched properties are the example config. -/
def pollArgs : SyncArgs :=
  { typeName := "AWS::S3::Bucket", desiredState := exampleDesired,
    requestToken := some "tok-1",
    env := { pollResponse := { operationStatus := "SUCCESS", identifier := some "abc" },
             getResponse := exampleDesired } }

/-- A fresh instance whose create call fails at once. -/
def createFailArgs : SyncArgs :=
  { typeName := "AWS::S3::Bucket", desiredState := exampleDesired,
    configHash := some "old",
    env := { createResponse := { operationStatus := "FAILED", statusMessage := some "boom" } } }

/-- Out-of-band drift with reconciliation disabled: the stored state and
fingerprint match the desired config, but the remote value changed. -/
def reportArgs : SyncArgs :=
  { typeName := "AWS::S3::Bucket", desiredState := [("Name", Json.str "a")],
    reconcileOnDrift := some false,
    configHash := some (calculateConfigHash [("Name", Json.str "a")]),
    resourceIdentifier := some "abc",
    state := some [("Name", Json.str "a")],
    env := { getResponse := [("Name", Json.str "b")] } }

/-- Out-of-band drift with reconciliation enabled but an empty desired
config: the generated patch is empty, so no update call can be issued. -/
def emptyPatchArgs : SyncArgs :=
  { typeName := "AWS::S3::Bucket", desiredState := [],
    reconcileOnDrift := some true,
    configHash := some (calculateConfigHash []),
    resourceIdentifier := some "abc",
    state := some [("A", Json.num 1)],
    env := { getResponse := [("A", Json.num 2)] } }

/-- An instance fully in sync: stored fingerprint matches, remote state
matches stored state. -/
def insyncArgs : SyncArgs :=
  { typeName := "AWS::S3::Bucket", desiredState := [("Name", Json.str "a")],
    configHash := some (calculateConfigHash [("Name", Json.str "a")]),
    resourceIdentifier := some "abc",
    state := some [("Name", Json.str "a")],
    env := { getResponse := [("Name", Json.str "a")] } }

end ConcreteInstances

/-- C7: with no operation token and no resource identifier stored, the
engine issues a create call with the current desired config; on a FAILED
response it returns terminal `failed` with the provider's message
surfaced in the logs and leaves the KV entries unchanged; otherwise it
persists the returned operation token and the fingerprint of the
submitted config and returns `in_progress` with re-poll delay 10. -/
theorem c7_create_path (a : SyncArgs)
    (ht : a.requestToken = none) (hr : a.resourceIdentifier = none) :
    (onSync a).calls = [RemoteCall.create a.typeName a.desiredState] ∧
    (a.env.createResponse.operationStatus = "FAILED" →
      (onSync a).newStatus = "failed" ∧
      (onSync a).customStatusDescription = some "Creation failed, see logs" ∧
      (onSync a).logs =
        ["Error creating resource: " ++ a.env.createResponse.statusMessage.getD "undefined"] ∧
      (onSync a).tokenKV = a.requestToken ∧
      (onSync a).hashKV = a.configHash) ∧
    (a.env.createResponse.operationStatus ≠ "FAILED" →
      (onSync a).newStatus = "in_progress" ∧
      (onSync a).tokenKV = a.env.createResponse.requestToken ∧
      (onSync a).hashKV = some (calculateConfigHash a.desiredState) ∧
      (onSync a).nextScheduleDelay = some 10) := by
  by_cases hf : a.env.createResponse.operationStatus = "FAILED"
  · simp [onSync, ht, hr, hf]
  · have hf' : (a.env.createResponse.operationStatus == "FAILED") = false := by
      rw [beq_eq_false_iff_ne]
      exact hf
    simp [onSync, syncCurrentConfigHash, ht, hr, hf, hf']

/-- C7 witness: the fresh example instance issues the create call and
returns `in_progress` with delay 10. -/
theorem c7_create_path_witness :
    (onSync freshArgs).calls = [RemoteCall.create "AWS::S3::Bucket" exampleDesired] ∧
    (onSync freshArgs).newStatus = "in_progress" ∧
    (onSync freshArgs).nextScheduleDelay = some 10 := by
  obtain ⟨h1, _, h3⟩ := c7_create_path freshArgs rfl rfl
  have h4 := h3 (by intro h; simp [freshArgs] at h)
  exact ⟨h1, h4.1, h4.2.2.2⟩

/-- C8: a drain invocation with a resource identifier present and no
operation token issues a delete call; a FAILED response yields `failed`,
a SUCCESS response yields `drained` on that same invocation, and any
other response persists the returned token and yields `draining` with
the re-poll delay. -/
theorem c8_drain_delete (a : DrainArgs) (rid : String)
    (ht : a.requestToken = none) (hr : a.resourceIdentifier = some rid) :
    (onDrain a).calls = [RemoteCall.delete a.typeName (some rid)] ∧
    (a.env.deleteResponse.operationStatus = "FAILED" →
      (onDrain a).newStatus = "failed") ∧
    (a.env.deleteResponse.operationStatus = "SUCCESS" →
      (onDrain a).newStatus = "drained") ∧
    (a.env.deleteResponse.operationStatus ≠ "FAILED" →
      a.env.deleteResponse.operationStatus ≠ "SUCCESS" →
      (onDrain a).newStatus = "draining" ∧
      (onDrain a).tokenKV = a.env.deleteResponse.requestToken ∧
      (onDrain a).nextScheduleDelay = some 10) := by
  by_cases hf : a.env.deleteResponse.operationStatus = "FAILED"
  · simp [onDrain, ht, hr, hf]
  · have hf' : (a.env.deleteResponse.operationStatus == "FAILED") = false := by
      rw [beq_eq_false_iff_ne]
      exact hf
    by_cases hs : a.env.deleteResponse.operationStatus = "SUCCESS"
    · simp [onDrain, ht, hr, hf, hf', hs]
    · have hs' : (a.env.deleteResponse.operationStatus == "SUCCESS") = false := by
        rw [beq_eq_false_iff_ne]
        exact hs
      simp [onDrain, ht, hr, hf, hf', hs, hs']

/-- C8 witness: draining the example instance whose delete responds
SUCCESS issues the delete call and returns `drained` immediately. -/
theorem c8_drain_delete_witness :
    (onDrain drainArgs).calls = [RemoteCall.delete "AWS::S3::Bucket" (some "abc")] ∧
    (onDrain drainArgs).newStatus = "drained" := by
  obtain ⟨h1, _, h3, _⟩ := c8_drain_delete drainArgs "abc" rfl rfl
  exact ⟨h1, h3 rfl⟩

/-- C6: with an operation token present and a poll returning SUCCESS,
the engine fetches the resource's properties, clears the stored token,
persists the returned identifier and the fetched properties as the
observed state, emits a change notification exactly when the newly
observed state differs from the previous one excluding immutable keys,
and returns `ready` with `drifted = false`. -/
theorem c6_poll_success (a : SyncArgs) (tok : String)
    (ht : a.requestToken = some tok)
    (hs : a.env.pollResponse.operationStatus = "SUCCESS") :
    (onSync a).calls =
      [RemoteCall.getStatus tok, RemoteCall.get a.typeName a.env.pollResponse.identifier] ∧
    (onSync a).tokenKV = none ∧
    (onSync a).hashKV = a.configHash ∧
    (onSync a).sigState = some a.env.getResponse ∧
    (onSync a).sigResourceIdentifier = some a.env.pollResponse.identifier ∧
    (onSync a).sigDrifted = some false ∧
    (onSync a).newStatus = "ready" ∧
    (onSync a).emitted =
      (if !(Compare.deepEqual a.nonUpdatableKeys (Json.obj a.env.getResponse)
              (Json.obj (a.state.getD []))) then
        [{ state := a.env.getResponse,
           resourceIdentifier := a.env.pollResponse.identifier,
           drifted := false }]
       else []) ∧
    ((onSync a).emitted ≠ [] ↔
      Compare.deepEqual a.nonUpdatableKeys (Json.obj a.env.getResponse)
        (Json.obj (a.state.getD [])) = false) := by
  have hf' : (a.env.pollResponse.operationStatus == "FAILED") = false := by
    rw [beq_eq_false_iff_ne, hs]
    decide
  refine ⟨?_, ?_, ?_, ?_, ?_, ?_, ?_, ?_, ?_⟩ <;>
    simp [onSync, ht, hs, hf']


/-- C6 witness: the poll-success scenario returns `ready`, persists
`resourceIdentifier = "abc"` and the fetched properties, and emits one
notification. -/
theorem c6_poll_success_witness :
    (onSync pollArgs).newStatus = "ready" ∧
    (onSync pollArgs).tokenKV = none ∧
    (onSync pollArgs).sigState = some exampleDesired ∧
    (onSync pollArgs).sigResourceIdentifier = some (some "abc") ∧
    (onSync pollArgs).emitted =
      [{ state := exampleDesired, resourceIdentifier := some "abc", drifted := false }] := by
  obtain ⟨_, h2, _, h4, h5, _, h7, h8, _⟩ := c6_poll_success pollArgs "tok-1" rfl rfl
  refine ⟨h7, h2, h4, h5, ?_⟩
  rw [h8]
  simp +decide [pollArgs, exampleDesired, Compare.deepEqual_obj, Compare.visibleKeys,
    List.insertionSort, List.orderedInsert, List.lookup]

section BranchLemmas

variable (a : SyncArgs) (rid : String)

/-- Drift-branch shape: reporting only (drift, no config change,
reconciliation disabled). -/
lemma onSync_report_branch
    (ht : a.requestToken = none) (hr : a.resourceIdentifier = some rid)
    (hd : syncDriftDetected a = true) (hc : syncConfigChanged a = false)
    (hrec : syncShouldReconcile a = false) :
    onSync a =
      { newStatus := "ready",
        customStatusDescription :=
          some ("Drifted (" ++
            String.intercalate ", "
              (Compare.getDriftedFields (syncActualState a) (syncLastKnownState a)
                a.nonUpdatableKeys) ++ ")"),
        tokenKV := none, hashKV := a.configHash,
        sigDrifted := some true,
        emitted := [{ state := syncActualState a, resourceIdentifier := some rid,
                      drifted := true }],
        logs := Compare.logDrift a.typeName rid (syncActualState a) (syncLastKnownState a)
          a.nonUpdatableKeys,
        calls := [RemoteCall.get a.typeName (some rid)] } := by
  simp [onSync, ht, hr, hd, hc, hrec]

/-- Drift-branch shape: reconciling with an empty patch. -/
lemma onSync_emptyPatch_branch
    (ht : a.requestToken = none) (hr : a.resourceIdentifier = some rid)
    (hdc : (syncDriftDetected a || syncConfigChanged a) = true)
    (hnrep : (!(syncShouldReconcile a) && syncDriftDetected a && !(syncConfigChanged a)) = false)
    (hp : (syncPatchOperations a).length = 0) :
    onSync a =
      { newStatus := "ready",
        tokenKV := none, hashKV := some (syncCurrentConfigHash a),
        sigState := some (syncActualState a),
        sigDrifted := some false,
        emitted :=
          if syncDriftDetected a then
            [{ state := syncActualState a, resourceIdentifier := some rid,
               drifted := false }]
          else [],
        logs :=
          if syncDriftDetected a && !(syncConfigChanged a) then
            Compare.logDrift a.typeName rid (syncActualState a) (syncLastKnownState a)
              a.nonUpdatableKeys
          else [],
        calls := [RemoteCall.get a.typeName (some rid)] } := by
  simp [onSync, ht, hr, hdc, hnrep, hp]

/-- Drift-branch shape: reconciling with a non-empty patch issues the
update call. -/
lemma onSync_update_branch
    (ht : a.requestToken = none) (hr : a.resourceIdentifier = some rid)
    (hdc : (syncDriftDetected a || syncConfigChanged a) = true)
    (hnrep : (!(syncShouldReconcile a) && syncDriftDetected a && !(syncConfigChanged a)) = false)
    (hp : (syncPatchOperations a).length ≠ 0) :
    onSync a =
      (if a.env.updateResponse.operationStatus == "FAILED" then
        { newStatus := "failed",
          customStatusDescription := some "Update failed, see logs",
          tokenKV := none, hashKV := a.configHash,
          logs :=
            (if syncDriftDetected a && !(syncConfigChanged a) then
              Compare.logDrift a.typeName rid (syncActualState a) (syncLastKnownState a)
                a.nonUpdatableKeys
            else []) ++
            ["Error updating resource: " ++ a.env.updateResponse.statusMessage.getD "undefined"],
          calls := [RemoteCall.get a.typeName (some rid),
                    RemoteCall.update a.typeName rid (syncPatchOperations a)] }
      else
        { newStatus := "in_progress", nextScheduleDelay := some 10,
          tokenKV := a.env.updateResponse.requestToken,
          hashKV := some (syncCurrentConfigHash a),
          logs :=
            if syncDriftDetected a && !(syncConfigChanged a) then
              Compare.logDrift a.typeName rid (syncActualState a) (syncLastKnownState a)
                a.nonUpdatableKeys
            else [],
          calls := [RemoteCall.get a.typeName (some rid),
                    RemoteCall.update a.typeName rid (syncPatchOperations a)] }) := by
  by_cases hf : a.env.updateResponse.operationStatus = "FAILED"
  · simp [onSync, ht, hr, hdc, hnrep, hp, hf]
  · have hf' : (a.env.updateResponse.operationStatus == "FAILED") = false := by
      rw [beq_eq_false_iff_ne]
      exact hf
    simp [onSync, ht, hr, hdc, hnrep, hp, hf']

/-- Drift-branch shape: nothing changed at all. -/
lemma onSync_insync_branch
    (ht : a.requestToken = none) (hr : a.resourceIdentifier = some rid)
    (hdd : syncDriftDetected a = false) (hcc : syncConfigChanged a = false) :
    onSync a =
      { newStatus := "ready",
        tokenKV := none, hashKV := a.configHash,
        calls := [RemoteCall.get a.typeName (some rid)] } := by
  simp [onSync, ht, hr, hdd, hcc]

end BranchLemmas

/-- C10: whenever a create or update call is issued and its response is
FAILED, `onSync` returns `failed` and both persisted KV entries keep
exactly their prior values. -/
theorem c10_failed_keeps_kv (a : SyncArgs)
    (h : (∃ tn d, RemoteCall.create tn d ∈ (onSync a).calls ∧
            a.env.createResponse.operationStatus = "FAILED") ∨
         (∃ tn i p, RemoteCall.update tn i p ∈ (onSync a).calls ∧
            a.env.updateResponse.operationStatus = "FAILED")) :
    (onSync a).newStatus = "failed" ∧
    (onSync a).tokenKV = a.requestToken ∧
    (onSync a).hashKV = a.configHash := by
  cases htok : a.requestToken with
  | some tok =>
    -- Poll branch: no create or update call is ever issued.
    exfalso
    have hcalls : (onSync a).calls = [RemoteCall.getStatus tok] ∨
        (onSync a).calls =
          [RemoteCall.getStatus tok, RemoteCall.get a.typeName a.env.pollResponse.identifier] := by
      by_cases hf : a.env.pollResponse.operationStatus = "FAILED"
      · left
        simp [onSync, htok, hf]
      · have hf' : (a.env.pollResponse.operationStatus == "FAILED") = false := by
          rw [beq_eq_false_iff_ne]
          exact hf
        by_cases hs : a.env.pollResponse.operationStatus = "SUCCESS"
        · right
          simp [onSync, htok, hf', hs]
        · have hs' : (a.env.pollResponse.operationStatus == "SUCCESS") = false := by
            rw [beq_eq_false_iff_ne]
            exact hs
          left
          simp [onSync, htok, hf', hs']
    rcases h with ⟨tn, d, hmem, _⟩ | ⟨tn, i, p, hmem, _⟩ <;>
      rcases hcalls with hc | hc <;> rw [hc] at hmem <;> simp at hmem
  | none =>
    cases hrid : a.resourceIdentifier with
    | none =>
      -- Creation branch: calls = [create]; only the first disjunct is possible.
      rcases h with ⟨tn, d, _, hf⟩ | ⟨tn, i, p, hmem, _⟩
      · simp [onSync, htok, hrid, hf]
      · exfalso
        revert hmem
        by_cases hcf : a.env.createResponse.operationStatus = "FAILED"
        · simp [onSync, htok, hrid, hcf]
        · have hcf' : (a.env.createResponse.operationStatus == "FAILED") = false := by
            rw [beq_eq_false_iff_ne]
            exact hcf
          simp [onSync, htok, hrid, hcf']
    | some rid =>
      -- Drift branch: only the update sub-branch issues a mutation call.
      by_cases hdc : (syncDriftDetected a || syncConfigChanged a) = true
      · by_cases hrep :
          (!(syncShouldReconcile a) && syncDriftDetected a && !(syncConfigChanged a)) = true
        · -- Report-only branch: the only call is the read.
          exfalso
          have hd : syncDriftDetected a = true := by
            rcases Bool.and_eq_true_iff.mp hrep with ⟨h1, _⟩
            exact (Bool.and_eq_true_iff.mp h1).2
          have hc : syncConfigChanged a = false := by
            have := (Bool.and_eq_true_iff.mp hrep).2
            simpa using this
          have hrec : syncShouldReconcile a = false := by
            rcases Bool.and_eq_true_iff.mp hrep with ⟨h1, _⟩
            have := (Bool.and_eq_true_iff.mp h1).1
            simpa using this
          have heq := onSync_report_branch a rid htok hrid hd hc hrec
          rcases h with ⟨tn, d, hmem, _⟩ | ⟨tn, i, p, hmem, _⟩ <;>
            rw [heq] at hmem <;> simp at hmem
        · have hrep' :
            (!(syncShouldReconcile a) && syncDriftDetected a && !(syncConfigChanged a)) = false :=
            Bool.not_eq_true _ ▸ Bool.of_not_eq_true hrep
          by_cases hp : (syncPatchOperations a).length = 0
          · -- Empty patch: the only call is the read.
            exfalso
            have heq := onSync_emptyPatch_branch a rid htok hrid hdc hrep' hp
            rcases h with ⟨tn, d, hmem, _⟩ | ⟨tn, i, p, hmem, _⟩ <;>
              rw [heq] at hmem <;> simp at hmem
          · -- Update branch.
            have heq := onSync_update_branch a rid htok hrid hdc hrep' hp
            rcases h with ⟨tn, d, hmem, _⟩ | ⟨tn, i, p, hmem, hf⟩
            · exfalso
              rw [heq] at hmem
              by_cases hup : (a.env.updateResponse.operationStatus == "FAILED") = true <;>
                simp [hup] at hmem
            · have hup : (a.env.updateResponse.operationStatus == "FAILED") = true := by
                rw [beq_iff_eq]
                exact hf
              rw [heq, if_pos hup]
              simp [htok]
      · -- In-sync branch: the only call is the read.
        exfalso
        have hfalse : (syncDriftDetected a || syncConfigChanged a) = false := by
          simpa using hdc
        have hdd : syncDriftDetected a = false := (Bool.or_eq_false_iff.mp hfalse).1
        have hcc : syncConfigChanged a = false := (Bool.or_eq_false_iff.mp hfalse).2
        have heq := onSync_insync_branch a rid htok hrid hdd hcc
        rcases h with ⟨tn, d, hmem, _⟩ | ⟨tn, i, p, hmem, _⟩ <;>
          rw [heq] at hmem <;> simp at hmem


/-- C10 witness: a failed create leaves the previously stored
fingerprint and the absent token untouched. -/
theorem c10_failed_keeps_kv_witness :
    (onSync createFailArgs).newStatus = "failed" ∧
    (onSync createFailArgs).tokenKV = none ∧
    (onSync createFailArgs).hashKV = some "old" :=
  c10_failed_keeps_kv createFailArgs
    (Or.inl ⟨"AWS::S3::Bucket", exampleDesired, by simp [onSync, createFailArgs], rfl⟩)

lemma slash_append_inj {k k' : String} (h : "/" ++ k = "/" ++ k') : k = k' := by
  have h2 : ("/" ++ k).data = ("/" ++ k').data := by rw [h]
  rw [String.data_append, String.data_append] at h2
  rcases k with ⟨dk⟩
  rcases k' with ⟨dk'⟩
  simp at h2
  rw [h2]

/-- Complete characterization of the operations `generateJsonPatch`
emits. -/
lemma mem_generateJsonPatch_iff (oldObj newObj : List (String × Json))
    (ro uc : List String) (op : PatchOperation) :
    op ∈ generateJsonPatch oldObj newObj ro uc ↔
      ∃ k, k ∈ firstDedup ((newObj.map Prod.fst) ++ uc) ∧ ro.contains k = false ∧
        ((∃ v, List.lookup k oldObj = some v ∧ List.lookup k newObj = none ∧
            uc.contains k = true ∧ op = { op := "remove", path := "/" ++ k }) ∨
         (∃ v, List.lookup k oldObj = none ∧ List.lookup k newObj = some v ∧
            op = { op := "add", path := "/" ++ k, value := some v }) ∨
         (∃ v w, List.lookup k oldObj = some v ∧ List.lookup k newObj = some w ∧
            Patch.deepEqual v w = false ∧
            op = { op := "replace", path := "/" ++ k, value := some w })) := by
  unfold generateJsonPatch genPatchForKey
  rw [List.mem_flatMap]
  constructor
  · rintro ⟨k, hk, hop⟩
    refine ⟨k, hk, ?_⟩
    by_cases hro : ro.contains k = true
    · rw [if_pos hro] at hop
      simp at hop
    · rw [if_neg hro] at hop
      have hro' : ro.contains k = false := by simpa using hro
      refine ⟨hro', ?_⟩
      rcases h1 : List.lookup k oldObj with _ | v <;>
        rcases h2 : List.lookup k newObj with _ | w <;>
        rw [h1, h2] at hop
      · simp at hop
      · refine Or.inr (Or.inl ⟨w, rfl, rfl, ?_⟩)
        simpa using hop
      · by_cases huc : uc.contains k = true
        · simp only [huc, if_true] at hop
          simp at hop
          exact Or.inl ⟨v, rfl, rfl, huc, hop⟩
        · exfalso
          simp at hop huc
          exact huc hop.1
      · by_cases heq : Patch.deepEqual v w = true
        · simp [heq] at hop
        · have heq' : Patch.deepEqual v w = false := by simpa using heq
          simp [heq'] at hop
          exact Or.inr (Or.inr ⟨v, w, rfl, rfl, heq', hop⟩)
  · rintro ⟨k, hk, hro, hcase⟩
    refine ⟨k, hk, ?_⟩
    rw [if_neg (by simpa using hro : ¬ro.contains k = true)]
    rcases hcase with ⟨v, h1, h2, huc, rfl⟩ | ⟨v, h1, h2, rfl⟩ | ⟨v, w, h1, h2, hne, rfl⟩
    · rw [h1, h2]
      simp
      simpa using huc
    · rw [h1, h2]
      simp
    · rw [h1, h2]
      simp [hne]

/-- C4: no generated patch operation targets a path whose top-level key
belongs to the read-only (immutable) set. -/
theorem c4_no_readonly_paths (oldObj newObj : List (String × Json))
    (readOnlyKeys userConfigKeys : List String) :
    ∀ op ∈ generateJsonPatch oldObj newObj readOnlyKeys userConfigKeys,
      ∀ k ∈ readOnlyKeys, op.path ≠ "/" ++ k := by
  intro op hop k hk heq
  obtain ⟨key, _, hro, hcase⟩ :=
    (mem_generateJsonPatch_iff oldObj newObj readOnlyKeys userConfigKeys op).mp hop
  have hpath : op.path = "/" ++ key := by
    rcases hcase with ⟨v, _, _, _, rfl⟩ | ⟨v, _, _, rfl⟩ | ⟨v, w, _, _, _, rfl⟩ <;> rfl
  have hkey : key = k := slash_append_inj (hpath ▸ heq)
  subst hkey
  simp at hro
  exact hro hk

/-- C4 witness: a concrete generated patch operation, checked against a
read-only key. -/
theorem c4_no_readonly_paths_witness :
    ({ op := "add", path := "/" ++ "Name", value := some (Json.str "a") } : PatchOperation).path ≠
      "/" ++ "Id" :=
  c4_no_readonly_paths [] [("Name", Json.str "a")] ["Id"] ["Name"] _
    (by simp +decide [generateJsonPatch, genPatchForKey, firstDedup, List.lookup]) "Id" (by simp)

/-- C5: for a key outside the immutable set, a `remove` operation for it
is generated exactly when the key is present in the observed object,
absent from the desired one, and listed in `userConfigKeys`; a key that
is present in the observed object, absent from the desired one, and not
in `userConfigKeys` yields no operation at all. -/
theorem c5_remove_iff (oldObj newObj : List (String × Json)) (ro uc : List String)
    (k : String) (hk : k ∉ ro) :
    (({ op := "remove", path := "/" ++ k } : PatchOperation) ∈
        generateJsonPatch oldObj newObj ro uc ↔
      (List.lookup k oldObj).isSome ∧ List.lookup k newObj = none ∧ k ∈ uc) ∧
    ((List.lookup k oldObj).isSome → List.lookup k newObj = none → k ∉ uc →
      ∀ op ∈ generateJsonPatch oldObj newObj ro uc, op.path ≠ "/" ++ k) := by
  constructor
  · constructor
    · intro hmem
      obtain ⟨key, hkdedup, hro, hcase⟩ :=
        (mem_generateJsonPatch_iff oldObj newObj ro uc _).mp hmem
      rcases hcase with ⟨v, h1, h2, huc, hop⟩ | ⟨v, _, _, hop⟩ | ⟨v, w, _, _, _, hop⟩
      · have hkey : key = k := by
          have := congrArg PatchOperation.path hop
          exact (slash_append_inj this).symm
        subst hkey
        refine ⟨by simp [h1], h2, ?_⟩
        simpa using huc
      · exfalso
        have := congrArg PatchOperation.op hop
        simp at this
      · exfalso
        have := congrArg PatchOperation.op hop
        simp at this
    · rintro ⟨h1, h2, huc⟩
      obtain ⟨v, hv⟩ := Option.isSome_iff_exists.mp h1
      refine (mem_generateJsonPatch_iff oldObj newObj ro uc _).mpr
        ⟨k, ?_, by simpa using hk, Or.inl ⟨v, hv, h2, by simpa using huc, rfl⟩⟩
      rw [mem_firstDedup]
      exact List.mem_append.mpr (Or.inr huc)
  · intro _ h2 huc op hop heq
    obtain ⟨key, _, _, hcase⟩ :=
      (mem_generateJsonPatch_iff oldObj newObj ro uc _).mp hop
    have hpath : op.path = "/" ++ key := by
      rcases hcase with ⟨v, _, _, _, rfl⟩ | ⟨v, _, _, rfl⟩ | ⟨v, w, _, _, _, rfl⟩ <;> rfl
    have hkey : key = k := slash_append_inj (hpath ▸ heq)
    subst hkey
    rcases hcase with ⟨v, _, _, huck, _⟩ | ⟨v, _, hvnew, _⟩ | ⟨v, w, _, hwnew, _, _⟩
    · exact huc (by simpa using huck)
    · rw [h2] at hvnew
      exact Option.noConfusion hvnew
    · rw [h2] at hwnew
      exact Option.noConfusion hwnew

/-- C5 witness: a key present in the observed object, absent from the
desired one, and explicitly configured, yields a remove operation. -/
theorem c5_remove_iff_witness :
    ({ op := "remove", path := "/" ++ "Size" } : PatchOperation) ∈
      generateJsonPatch [("Size", Json.num 1)] [] [] ["Size"] :=
  ((c5_remove_iff [("Size", Json.num 1)] [] [] ["Size"] "Size" (by simp)).1).mpr
    ⟨by decide, rfl, by simp⟩

lemma zip_self_eq_map {α : Type} : ∀ (l : List α), l.zip l = l.map (fun x => (x, x))
  | [] => rfl
  | x :: xs => by
    simp [List.zip_cons_cons, zip_self_eq_map xs]

lemma compare_deepEqual_null (excl : List String) :
    Compare.deepEqual excl Json.null Json.null = true := by
  rw [Compare.deepEqual] <;> simp [strictEq]

lemma compare_deepEqual_bool (excl : List String) (b : Bool) :
    Compare.deepEqual excl (Json.bool b) (Json.bool b) = true := by
  rw [Compare.deepEqual] <;> simp [strictEq]

lemma patch_deepEqual_null : Patch.deepEqual Json.null Json.null = true := by
  rw [Patch.deepEqual] <;> simp [strictEq]

lemma patch_deepEqual_bool (b : Bool) :
    Patch.deepEqual (Json.bool b) (Json.bool b) = true := by
  rw [Patch.deepEqual] <;> simp [strictEq]

/-- compare.ts deepEqual is reflexive. -/
theorem compare_deepEqual_refl (excl : List String) (a : Json) :
    Compare.deepEqual excl a a = true := by
  have main : ∀ n (a : Json), sizeOf a ≤ n → Compare.deepEqual excl a a = true := by
    intro n
    induction n using Nat.strong_induction_on with
    | _ n ih =>
      intro a ha
      match a with
      | Json.null => exact compare_deepEqual_null excl
      | Json.bool b => exact compare_deepEqual_bool excl b
      | Json.num m => simp [Compare.deepEqual_num]
      | Json.str s => simp [Compare.deepEqual_str]
      | Json.arr as =>
        rw [Compare.deepEqual_arr]
        simp only [beq_self_eq_true, Bool.true_and, List.all_eq_true]
        intro p hp
        rw [zip_self_eq_map] at hp
        obtain ⟨x, hx, rfl⟩ := List.mem_map.mp hp
        have hsz : sizeOf x < sizeOf (Json.arr as) := by
          have := List.sizeOf_lt_of_mem hx
          simp
          omega
        exact ih (sizeOf x) (by omega) x (le_refl _)
      | Json.obj fa =>
        rw [Compare.deepEqual_obj]
        simp only [beq_self_eq_true, Bool.true_and, List.all_eq_true]
        intro k _
        rcases hl : List.lookup k fa with _ | v
        · simp
        · have hsz : sizeOf v < sizeOf (Json.obj fa) := by
            have := sizeOf_lookup_lt hl
            simp
            omega
          simpa using ih (sizeOf v) (by omega) v (le_refl _)
  exact main (sizeOf a) a (le_refl _)

/-- patch.ts deepEqual is reflexive. -/
theorem patch_deepEqual_refl (a : Json) : Patch.deepEqual a a = true := by
  have main : ∀ n (a : Json), sizeOf a ≤ n → Patch.deepEqual a a = true := by
    intro n
    induction n using Nat.strong_induction_on with
    | _ n ih =>
      intro a ha
      match a with
      | Json.null => exact patch_deepEqual_null
      | Json.bool b => exact patch_deepEqual_bool b
      | Json.num m => simp [Patch.deepEqualNum]
      | Json.str s => simp [Patch.deepEqualStr]
      | Json.arr as =>
        rw [Patch.deepEqualArr]
        simp only [beq_self_eq_true, Bool.true_and, List.all_eq_true]
        intro p hp
        rw [zip_self_eq_map] at hp
        obtain ⟨x, hx, rfl⟩ := List.mem_map.mp hp
        have hsz : sizeOf x < sizeOf (Json.arr as) := by
          have := List.sizeOf_lt_of_mem hx
          simp
          omega
        exact ih (sizeOf x) (by omega) x (le_refl _)
      | Json.obj fa =>
        rw [Patch.deepEqualObj]
        simp only [beq_self_eq_true, Bool.true_and, List.all_eq_true]
        intro k _
        rcases hl : List.lookup k fa with _ | v
        · simp
        · have hsz : sizeOf v < sizeOf (Json.obj fa) := by
            have := sizeOf_lookup_lt hl
            simp
            omega
          simpa using ih (sizeOf v) (by omega) v (le_refl _)
  exact main (sizeOf a) a (le_refl _)

lemma patchPathKey_slash (k : String) : patchPathKey ("/" ++ k) = k := by
  rcases k with ⟨dk⟩
  simp [patchPathKey, String.data_append]

lemma lookup_setKey_self (k : String) (v : Json) :
    ∀ (o : List (String × Json)), List.lookup k (setKey o k v) = some v := by
  intro o
  induction o with
  | nil => simp [setKey, List.lookup_cons]
  | cons p rest ih =>
    rcases p with ⟨k', v'⟩
    rw [setKey]
    by_cases hk : k' = k
    · subst hk
      simp [List.lookup_cons]
    · rw [if_neg hk]
      have hbe : (k == k') = false := by
        simp
        intro h
        exact hk h.symm
      simp [List.lookup_cons, hbe, ih]

lemma lookup_setKey_ne (k k' : String) (v : Json) (hne : k' ≠ k) :
    ∀ (o : List (String × Json)), List.lookup k' (setKey o k v) = List.lookup k' o := by
  intro o
  have hbe : (k' == k) = false := by simp [hne]
  induction o with
  | nil => simp [setKey, List.lookup_cons, hbe]
  | cons p rest ih =>
    rcases p with ⟨k0, v0⟩
    rw [setKey]
    by_cases hk : k0 = k
    · subst hk
      simp [List.lookup_cons, hbe]
    · rw [if_neg hk]
      simp only [List.lookup_cons]
      cases hbe0 : (k' == k0) <;> simp [hbe0, ih]

lemma removeKey_cons (k0 : String) (v0 : Json) (rest : List (String × Json)) (k : String) :
    removeKey ((k0, v0) :: rest) k =
      if k0 == k then removeKey rest k else (k0, v0) :: removeKey rest k := by
  by_cases h : (k0 == k) = true <;> simp [removeKey, List.filter_cons, h]

lemma lookup_removeKey_ne (k k' : String) (hne : k' ≠ k) (o : List (String × Json)) :
    List.lookup k' (removeKey o k) = List.lookup k' o := by
  have hbe : (k' == k) = false := by simp [hne]
  induction o with
  | nil => simp [removeKey]
  | cons p rest ih =>
    rcases p with ⟨k0, v0⟩
    rw [removeKey_cons]
    by_cases hk : (k0 == k) = true
    · rw [if_pos hk]
      have hk0 : (k' == k0) = false := by
        have : k0 = k := by simpa using hk
        subst this
        exact hbe
      simp [List.lookup_cons, hk0, ih]
    · rw [if_neg hk]
      simp only [List.lookup_cons]
      cases hbe0 : (k' == k0) <;> simp [hbe0, ih]

lemma lookup_applyOp_ne (k : String) (op : PatchOperation)
    (hne : patchPathKey op.path ≠ k) (o : List (String × Json)) :
    List.lookup k (applyOp o op) = List.lookup k o := by
  rw [applyOp]
  by_cases h1 : (op.op == "add" || op.op == "replace") = true
  · rw [if_pos h1]
    rcases op.value with _ | v
    · rfl
    · exact lookup_setKey_ne _ _ v (fun h => hne h.symm) o
  · rw [if_neg h1]
    by_cases h2 : (op.op == "remove") = true
    · rw [if_pos h2]
      exact lookup_removeKey_ne _ _ (fun h => hne h.symm) o
    · rw [if_neg h2]

lemma lookup_applyPatch_ne (k : String) :
    ∀ (ops : List PatchOperation) (o : List (String × Json)),
      (∀ op ∈ ops, patchPathKey op.path ≠ k) →
      List.lookup k (applyPatch o ops) = List.lookup k o := by
  intro ops
  induction ops with
  | nil => intro o _; rfl
  | cons op rest ih =>
    intro o hne
    rw [applyPatch, List.foldl_cons]
    have h1 := ih (applyOp o op) (fun op' h => hne op' (List.mem_cons_of_mem _ h))
    rw [applyPatch] at h1
    rw [h1]
    exact lookup_applyOp_ne k op (hne op (List.mem_cons_self _ _)) o

lemma mem_fst_of_lookup {k : String} {v : Json} :
    ∀ {l : List (String × Json)}, List.lookup k l = some v → k ∈ l.map Prod.fst := by
  intro l
  induction l with
  | nil => intro h; simp [List.lookup] at h
  | cons p rest ih =>
    intro h
    rcases p with ⟨k', v'⟩
    rw [List.lookup] at h
    cases hk : (k == k') with
    | true =>
      have : k = k' := by simpa using hk
      simp [this]
    | false =>
      rw [hk] at h
      exact List.mem_cons_of_mem _ (ih h)

lemma genPatchForKey_path (oldObj newObj : List (String × Json)) (ro uc : List String)
    (key : String) :
    ∀ op ∈ genPatchForKey oldObj newObj ro uc key, op.path = "/" ++ key := by
  intro op hop
  rw [genPatchForKey] at hop
  by_cases hro : ro.contains key = true
  · rw [if_pos hro] at hop
    simp at hop
  · rw [if_neg hro] at hop
    rcases h1 : List.lookup key oldObj with _ | v <;>
      rcases h2 : List.lookup key newObj with _ | w <;>
      rw [h1, h2] at hop
    · simp at hop
    · simp at hop
      rw [hop]
    · simp at hop
      rw [hop.2]
    · simp at hop
      rw [hop.2]

/-- C3 (amended): applying the patch generated with no immutable keys
and `explicitKeys = keys desired` to the observed object produces an
object that agrees with `desired` (up to patch.ts deep equality) on
every key of `desired`.  Keys of `observed` absent from `desired` are
left untouched, which is why the unrestricted claim fails. -/
theorem c3_patch_apply_amended (observed desired : List (String × Json)) :
    ∀ k v, List.lookup k desired = some v →
      ∃ w, List.lookup k
          (applyPatch observed
            (generateJsonPatch observed desired [] (desired.map Prod.fst))) = some w ∧
        Patch.deepEqual w v = true := by
  intro k v hv
  have hkmem : k ∈ firstDedup ((desired.map Prod.fst) ++ desired.map Prod.fst) := by
    rw [mem_firstDedup]
    exact List.mem_append.mpr (Or.inl (mem_fst_of_lookup hv))
  obtain ⟨l1, l2, hsplit⟩ := List.append_of_mem hkmem
  have hnodup := nodup_firstDedup ((desired.map Prod.fst) ++ desired.map Prod.fst)
  rw [hsplit] at hnodup
  obtain ⟨hn1, hn2, hdisj⟩ := List.nodup_append.mp hnodup
  have hkl1 : k ∉ l1 := fun hk1 => hdisj hk1 (List.mem_cons_self _ _)
  have hkl2 : k ∉ l2 := (List.nodup_cons.mp hn2).1
  set g := genPatchForKey observed desired [] (desired.map Prod.fst) with hgdef
  have hgen : generateJsonPatch observed desired [] (desired.map Prod.fst) =
      l1.flatMap g ++ (g k ++ l2.flatMap g) := by
    simp only [generateJsonPatch]
    rw [hsplit]
    simp
  rw [hgen, applyPatch, List.foldl_append, List.foldl_append]
  set mid := List.foldl applyOp observed (l1.flatMap g) with hmiddef
  have houter : List.lookup k (List.foldl applyOp (List.foldl applyOp mid (g k)) (l2.flatMap g)) =
      List.lookup k (List.foldl applyOp mid (g k)) := by
    have hpaths : ∀ op ∈ l2.flatMap g, patchPathKey op.path ≠ k := by
      intro op hop
      obtain ⟨key, hkey, hopg⟩ := List.mem_flatMap.mp hop
      rw [genPatchForKey_path _ _ _ _ key op hopg, patchPathKey_slash]
      intro hkk
      subst hkk
      exact hkl2 hkey
    have := lookup_applyPatch_ne k (l2.flatMap g) (List.foldl applyOp mid (g k)) hpaths
    simpa [applyPatch] using this
  have hmid_eq : List.lookup k mid = List.lookup k observed := by
    have hpaths : ∀ op ∈ l1.flatMap g, patchPathKey op.path ≠ k := by
      intro op hop
      obtain ⟨key, hkey, hopg⟩ := List.mem_flatMap.mp hop
      rw [genPatchForKey_path _ _ _ _ key op hopg, patchPathKey_slash]
      intro hkk
      subst hkk
      exact hkl1 hkey
    have := lookup_applyPatch_ne k (l1.flatMap g) observed hpaths
    simpa [applyPatch, hmiddef] using this
  rw [houter]
  rcases ho : List.lookup k observed with _ | w0
  · -- key absent from observed: an add operation sets it.
    have hgk : g k = [{ op := "add", path := "/" ++ k, value := some v }] := by
      simp [hgdef, genPatchForKey, ho, hv]
    rw [hgk]
    simp only [List.foldl_cons, List.foldl_nil]
    refine ⟨v, ?_, patch_deepEqual_refl v⟩
    simp only [applyOp, patchPathKey_slash]
    simp [lookup_setKey_self]
  · by_cases hde : Patch.deepEqual w0 v = true
    · -- values already deep-equal: no operation, the old value stays.
      have hgk : g k = [] := by
        simp [hgdef, genPatchForKey, ho, hv, hde]
      rw [hgk]
      simp only [List.foldl_nil]
      exact ⟨w0, by rw [hmid_eq, ho], hde⟩
    · -- values differ: a replace operation sets the desired value.
      have hde' : Patch.deepEqual w0 v = false := by simpa using hde
      have hgk : g k = [{ op := "replace", path := "/" ++ k, value := some v }] := by
        simp [hgdef, genPatchForKey, ho, hv, hde']
      rw [hgk]
      simp only [List.foldl_cons, List.foldl_nil]
      refine ⟨v, ?_, patch_deepEqual_refl v⟩
      simp only [applyOp, patchPathKey_slash]
      simp [lookup_setKey_self]

/-- C3 counterexample: with `observed = {"Extra": 5}` and `desired = {}`
the generated patch is empty, applying it returns `observed` unchanged,
and the result is not deep-equal to `desired` (even with an empty
immutable set): extra observed keys are never removed unless explicitly
configured. -/
theorem c3_patch_apply_counterexample :
    generateJsonPatch [("Extra", Json.num 5)] [] [] [] = [] ∧
    applyPatch [("Extra", Json.num 5)]
      (generateJsonPatch [("Extra", Json.num 5)] [] [] []) = [("Extra", Json.num 5)] ∧
    Compare.deepEqual []
      (Json.obj (applyPatch [("Extra", Json.num 5)]
        (generateJsonPatch [("Extra", Json.num 5)] [] [] [])))
      (Json.obj []) = false := by
  have h1 : generateJsonPatch [("Extra", Json.num 5)] [] [] [] = [] := by
    simp [generateJsonPatch, firstDedup]
  refine ⟨h1, by rw [h1]; rfl, ?_⟩
  rw [h1]
  simp +decide [applyPatch, Compare.deepEqual_obj, Compare.visibleKeys,
    List.insertionSort, List.orderedInsert]

/-- C3 witness: a concrete replace scenario. -/
theorem c3_patch_apply_amended_witness :
    ∃ w, List.lookup "Name"
        (applyPatch [("Name", Json.str "b")]
          (generateJsonPatch [("Name", Json.str "b")] [("Name", Json.str "a")] []
            ([("Name", Json.str "a")].map Prod.fst))) = some w ∧
      Patch.deepEqual w (Json.str "a") = true :=
  c3_patch_apply_amended [("Name", Json.str "b")] [("Name", Json.str "a")] "Name"
    (Json.str "a") rfl

/-- Looking a key up in a permuted association list with distinct keys
gives the same result. -/
lemma lookup_eq_of_perm {l₁ l₂ : List (String × Json)} (hperm : List.Perm l₁ l₂)
    (hnodup : (l₁.map Prod.fst).Nodup) (k : String) :
    List.lookup k l₁ = List.lookup k l₂ := by
  induction hperm with
  | nil => rfl
  | cons p h ih =>
    rcases p with ⟨k0, v0⟩
    rw [List.lookup_cons, List.lookup_cons]
    cases hbe : (k == k0) <;>
      simp [hbe, ih ((List.nodup_cons.mp (by simpa using hnodup)).2)]
  | swap p q l =>
    rcases p with ⟨kp, vp⟩
    rcases q with ⟨kq, vq⟩
    have hne : kq ≠ kp := by
      simp at hnodup
      intro h
      exact hnodup.1.1 h
    rw [List.lookup_cons, List.lookup_cons, List.lookup_cons, List.lookup_cons]
    cases hbq : (k == kq) <;> cases hbp : (k == kp) <;> simp [hbq, hbp]
    exact absurd (by
      have h1 : k = kq := by simpa using hbq
      have h2 : k = kp := by simpa using hbp
      rw [← h1, ← h2]) hne
  | trans h₁ h₂ ih₁ ih₂ =>
    have hnodup₂ := ((h₁.map Prod.fst).nodup_iff).mp hnodup
    rw [ih₁ hnodup, ih₂ hnodup₂]

/-- C2 (amended): two configs that are permutations of each other as
top-level key-value lists, with distinct keys and identical values,
have the same fingerprint.  Key order below the top level still matters
(the code sorts only the top-level keys), which is why the nested form
of the claim fails. -/
theorem c2_fingerprint_amended (c₁ c₂ : List (String × Json))
    (hperm : List.Perm c₁ c₂) (hnodup : (c₁.map Prod.fst).Nodup) :
    calculateConfigHash c₁ = calculateConfigHash c₂ := by
  suffices h : sortedTopLevel c₁ = sortedTopLevel c₂ by
    unfold calculateConfigHash
    rw [h]
  unfold sortedTopLevel
  have hkeys : List.insertionSort (fun a b => a ≤ b) (c₁.map Prod.fst) =
      List.insertionSort (fun a b => a ≤ b) (c₂.map Prod.fst) := by
    letI : IsAntisymm String (fun a b : String => a ≤ b) :=
      ⟨fun _ _ h1 h2 => le_antisymm h1 h2⟩
    apply List.eq_of_perm_of_sorted (r := fun a b : String => a ≤ b)
    · exact (List.perm_insertionSort _ _).trans
        ((hperm.map Prod.fst).trans (List.perm_insertionSort _ _).symm)
    · exact List.sorted_insertionSort _ _
    · exact List.sorted_insertionSort _ _
  rw [hkeys]
  apply List.filterMap_congr
  intro k _
  rw [lookup_eq_of_perm hperm hnodup k]

/-- C2 witness: swapping the two top-level keys leaves the fingerprint
unchanged. -/
theorem c2_fingerprint_amended_witness :
    calculateConfigHash [("b", Json.num 2), ("a", Json.num 1)] =
      calculateConfigHash [("a", Json.num 1), ("b", Json.num 2)] :=
  c2_fingerprint_amended _ _ (List.Perm.swap _ _ _) (by simp)

set_option maxRecDepth 1000000 in
/-- C2 counterexample: two configs equal as nested mappings that differ
only in the key order of a nested object have different fingerprints:
only top-level keys are sorted before serialization. -/
theorem c2_fingerprint_counterexample :
    Compare.deepEqual []
      (Json.obj [("a", Json.obj [("x", Json.num 1), ("y", Json.num 2)])])
      (Json.obj [("a", Json.obj [("y", Json.num 2), ("x", Json.num 1)])]) = true ∧
    calculateConfigHash [("a", Json.obj [("x", Json.num 1), ("y", Json.num 2)])] ≠
      calculateConfigHash [("a", Json.obj [("y", Json.num 2), ("x", Json.num 1)])] := by
  constructor
  · simp +decide [Compare.deepEqual_obj, Compare.deepEqual_num, Compare.visibleKeys,
      List.insertionSort, List.orderedInsert, List.lookup]
  · decide

/-- C1 (amended): with no token, an identifier present, the stored
fingerprint equal to the current one and drift detected: if
`reconcileOnDrift = false` the engine emits a `drifted = true` event,
returns `ready` with a status description listing the drifted fields,
and does not touch the stored observed state; if reconciliation is
enabled it issues an update call provided the generated patch is
non-empty (an empty patch refreshes state and returns `ready` without
any update call, which is why the unconditional claim fails). -/
theorem c1_drift_report_vs_reconcile (a : SyncArgs) (rid : String)
    (ht : a.requestToken = none) (hr : a.resourceIdentifier = some rid)
    (hhash : a.configHash = some (calculateConfigHash a.desiredState))
    (hdrift : Compare.deepEqual a.nonUpdatableKeys (Json.obj (syncActualState a))
      (Json.obj (syncLastKnownState a)) = false) :
    (a.reconcileOnDrift = some false →
      (onSync a).newStatus = "ready" ∧
      (onSync a).customStatusDescription =
        some ("Drifted (" ++
          String.intercalate ", "
            (Compare.getDriftedFields (syncActualState a) (syncLastKnownState a)
              a.nonUpdatableKeys) ++ ")") ∧
      (onSync a).emitted =
        [{ state := syncActualState a, resourceIdentifier := some rid, drifted := true }] ∧
      (onSync a).sigDrifted = some true ∧
      (onSync a).sigState = none ∧
      (onSync a).tokenKV = none ∧
      (onSync a).hashKV = a.configHash) ∧
    (a.reconcileOnDrift ≠ some false → syncPatchOperations a ≠ [] →
      RemoteCall.update a.typeName rid (syncPatchOperations a) ∈ (onSync a).calls) := by
  have hd : syncDriftDetected a = true := by
    simp [syncDriftDetected, hdrift]
  have hc : syncConfigChanged a = false := by
    simp [syncConfigChanged, syncCurrentConfigHash, hhash]
  constructor
  · intro hoff
    have hrec : syncShouldReconcile a = false := by
      simp [syncShouldReconcile, hoff]
    rw [onSync_report_branch a rid ht hr hd hc hrec]
    simp
  · intro hon hp
    have hrec : syncShouldReconcile a = true := by
      simp [syncShouldReconcile]
      intro h
      exact absurd h hon
    have hdc : (syncDriftDetected a || syncConfigChanged a) = true := by
      simp [hd]
    have hnrep :
        (!(syncShouldReconcile a) && syncDriftDetected a && !(syncConfigChanged a)) = false := by
      simp [hrec]
    have hlen : (syncPatchOperations a).length ≠ 0 := by
      intro h
      exact hp (List.length_eq_zero.mp h)
    rw [onSync_update_branch a rid ht hr hdc hnrep hlen]
    by_cases hf : (a.env.updateResponse.operationStatus == "FAILED") = true <;>
      simp [hf]

/-- C1 witness: the report scenario at a concrete drifted instance with
`reconcileOnDrift = false`. -/
theorem c1_drift_report_vs_reconcile_witness :
    (onSync reportArgs).newStatus = "ready" ∧
    (onSync reportArgs).sigState = none ∧
    (onSync reportArgs).sigDrifted = some true ∧
    (onSync reportArgs).emitted =
      [{ state := [("Name", Json.str "b")], resourceIdentifier := some "abc",
         drifted := true }] := by
  have hdrift : Compare.deepEqual reportArgs.nonUpdatableKeys
      (Json.obj (syncActualState reportArgs)) (Json.obj (syncLastKnownState reportArgs)) = false := by
    simp +decide [reportArgs, syncActualState, syncLastKnownState, Compare.deepEqual_obj,
      Compare.deepEqual_str, Compare.visibleKeys, List.insertionSort, List.orderedInsert,
      List.lookup]
  obtain ⟨h, _⟩ := c1_drift_report_vs_reconcile reportArgs "abc" rfl rfl rfl hdrift
  obtain ⟨h1, _, h3, h4, h5, _, _⟩ := h rfl
  exact ⟨h1, h5, h4, h3⟩

set_option maxRecDepth 1000000 in
/-- C1 counterexample: drift detected, fingerprint unchanged,
`reconcileOnDrift = true`, but the desired config is empty, so the
generated patch is empty and no update call is issued — the claim's
"instead issues an update call" fails. -/
theorem c1_drift_report_vs_reconcile_counterexample :
    Compare.deepEqual emptyPatchArgs.nonUpdatableKeys
      (Json.obj (syncActualState emptyPatchArgs))
      (Json.obj (syncLastKnownState emptyPatchArgs)) = false ∧
    emptyPatchArgs.reconcileOnDrift = some true ∧
    emptyPatchArgs.configHash = some (calculateConfigHash emptyPatchArgs.desiredState) ∧
    (onSync emptyPatchArgs).newStatus = "ready" ∧
    (onSync emptyPatchArgs).calls = [RemoteCall.get "AWS::S3::Bucket" (some "abc")] := by
  have hdrift : Compare.deepEqual emptyPatchArgs.nonUpdatableKeys
      (Json.obj (syncActualState emptyPatchArgs))
      (Json.obj (syncLastKnownState emptyPatchArgs)) = false := by
    simp +decide [emptyPatchArgs, syncActualState, syncLastKnownState, Compare.deepEqual_obj,
      Compare.deepEqual_num, Compare.visibleKeys, List.insertionSort, List.orderedInsert,
      List.lookup]
  have hd : syncDriftDetected emptyPatchArgs = true := by
    simp [syncDriftDetected, hdrift]
  have hc : syncConfigChanged emptyPatchArgs = false := by
    simp [syncConfigChanged, syncCurrentConfigHash, emptyPatchArgs]
  have hrec : syncShouldReconcile emptyPatchArgs = true := by
    simp [syncShouldReconcile, emptyPatchArgs]
  have hp : (syncPatchOperations emptyPatchArgs).length = 0 := by
    simp [syncPatchOperations, generateJsonPatch, emptyPatchArgs, firstDedup]
  have heq := onSync_emptyPatch_branch emptyPatchArgs "abc" rfl rfl
    (by simp [hd]) (by simp [hrec]) hp
  rw [heq]
  exact ⟨hdrift, rfl, rfl, rfl, rfl⟩

lemma applySyncOutput_eq_self (a : SyncArgs) (o : SyncOutput)
    (h1 : o.tokenKV = a.requestToken) (h2 : o.hashKV = a.configHash)
    (h3 : o.sigState = none) (h4 : o.sigResourceIdentifier = none) :
    applySyncOutput a o = a := by
  rcases a with ⟨tn, ds, rod, nuk, rt, ch, ri, st, env⟩
  simp [applySyncOutput, h1, h2, h3, h4]

/-- C9 (amended): starting from a state with no stored operation token,
if a sync invocation returns `ready`, then invoking the machine again
with the persisted fields carried over and the same remote responses
returns `ready` again and issues no create, update or delete call.
(The unrestricted claim fails: a fresh instance's first invocation
returns `in_progress`, not `ready`.) -/
theorem c9_idempotent_amended (a : SyncArgs)
    (ht : a.requestToken = none)
    (hready : (onSync a).newStatus = "ready") :
    (onSync (applySyncOutput a (onSync a))).newStatus = "ready" ∧
    ∀ c ∈ (onSync (applySyncOutput a (onSync a))).calls, c.isMutation = false := by
  cases hrid : a.resourceIdentifier with
  | none =>
    -- Creation branch never returns ready.
    exfalso
    by_cases hcf : (a.env.createResponse.operationStatus == "FAILED") = true <;>
      simp [onSync, ht, hrid, hcf] at hready
  | some rid =>
    by_cases hdc : (syncDriftDetected a || syncConfigChanged a) = true
    · by_cases hrep :
        (!(syncShouldReconcile a) && syncDriftDetected a && !(syncConfigChanged a)) = true
      · -- Report-only branch: nothing persisted changes, so the second
        -- invocation retraces the same branch.
        have hd : syncDriftDetected a = true := by
          rcases Bool.and_eq_true_iff.mp hrep with ⟨h1, _⟩
          exact (Bool.and_eq_true_iff.mp h1).2
        have hc : syncConfigChanged a = false := by
          have := (Bool.and_eq_true_iff.mp hrep).2
          simpa using this
        have hrec : syncShouldReconcile a = false := by
          rcases Bool.and_eq_true_iff.mp hrep with ⟨h1, _⟩
          have := (Bool.and_eq_true_iff.mp h1).1
          simpa using this
        have heq := onSync_report_branch a rid ht hrid hd hc hrec
        have ha' : applySyncOutput a (onSync a) = a := by
          rw [heq]
          exact applySyncOutput_eq_self a _ (by simp [ht]) rfl rfl rfl
        rw [ha', heq]
        constructor
        · rfl
        · intro c hc
          simp at hc
          rw [hc]
          rfl
      · have hrep' :
          (!(syncShouldReconcile a) && syncDriftDetected a && !(syncConfigChanged a)) = false :=
          Bool.not_eq_true _ ▸ Bool.of_not_eq_true hrep
        by_cases hp : (syncPatchOperations a).length = 0
        · -- Empty patch: state and fingerprint are refreshed; the second
          -- invocation finds no drift and no config change.
          have heq := onSync_emptyPatch_branch a rid ht hrid hdc hrep' hp
          rw [heq]
          have hrt : (applySyncOutput a (onSync a)).requestToken = none := by
            rw [heq]
            rfl
          have hri : (applySyncOutput a (onSync a)).resourceIdentifier = some rid := by
            rw [heq]
            simpa [applySyncOutput] using hrid
          have hd2 : syncDriftDetected (applySyncOutput a (onSync a)) = false := by
            rw [heq]
            simp [syncDriftDetected, syncActualState, syncLastKnownState, applySyncOutput,
              compare_deepEqual_refl]
          have hc2 : syncConfigChanged (applySyncOutput a (onSync a)) = false := by
            rw [heq]
            simp [syncConfigChanged, syncCurrentConfigHash, applySyncOutput]
          have heq2 := onSync_insync_branch (applySyncOutput a (onSync a)) rid
            (by rw [heq]; rfl) (by rw [heq]; simpa [applySyncOutput] using hrid)
            (by rw [heq] at hd2 ⊢; exact hd2) (by rw [heq] at hc2 ⊢; exact hc2)
          rw [heq] at heq2
          rw [heq2]
          constructor
          · rfl
          · intro c hc
            simp at hc
            rw [hc]
            rfl
        · -- Non-empty patch: the first invocation cannot have returned ready.
          exfalso
          have heq := onSync_update_branch a rid ht hrid hdc hrep' hp
          rw [heq] at hready
          by_cases hf : (a.env.updateResponse.operationStatus == "FAILED") = true <;>
            simp [hf] at hready
    · -- In sync: nothing persisted changes.
      have hfalse : (syncDriftDetected a || syncConfigChanged a) = false := by
        simpa using hdc
      have hdd : syncDriftDetected a = false := (Bool.or_eq_false_iff.mp hfalse).1
      have hcc : syncConfigChanged a = false := (Bool.or_eq_false_iff.mp hfalse).2
      have heq := onSync_insync_branch a rid ht hrid hdd hcc
      have ha' : applySyncOutput a (onSync a) = a := by
        rw [heq]
        exact applySyncOutput_eq_self a _ (by simp [ht]) rfl rfl rfl
      rw [ha', heq]
      constructor
      · rfl
      · intro c hc
        simp at hc
        rw [hc]
        rfl

/-- C9 witness: an in-sync instance stays `ready` on the second
invocation and issues no mutating call. -/
theorem c9_idempotent_amended_witness :
    (onSync (applySyncOutput insyncArgs (onSync insyncArgs))).newStatus = "ready" ∧
    ∀ c ∈ (onSync (applySyncOutput insyncArgs (onSync insyncArgs))).calls,
      c.isMutation = false := by
  have hdd : syncDriftDetected insyncArgs = false := by
    simp [syncDriftDetected, syncActualState, syncLastKnownState, insyncArgs,
      compare_deepEqual_refl]
  have hcc : syncConfigChanged insyncArgs = false := by
    simp [syncConfigChanged, syncCurrentConfigHash, insyncArgs]
  exact c9_idempotent_amended insyncArgs rfl
    (by rw [onSync_insync_branch insyncArgs "abc" rfl rfl hdd hcc])

/-- C9 counterexample: a fresh instance falsifies the unrestricted
claim — its first invocation returns `in_progress`, not `ready`. -/
theorem c9_idempotent_counterexample :
    freshArgs.requestToken = none ∧ freshArgs.resourceIdentifier = none ∧
    (onSync freshArgs).newStatus = "in_progress" := by
  refine ⟨rfl, rfl, ?_⟩
  simp +decide [onSync, freshArgs]
